import Mathlib

/-!
Verification of the todo-log storage layer.

This file is a shallow embedding, in Lean 4, of the storage abstraction of the
todo-log repository: the path-sandbox helper (`scripts/storage/__init__.py`,
`_resolve_safe_path`), the flat-file JSON backend
(`scripts/storage/json_backend.py`), the SQLite backend
(`scripts/storage/sqlite_backend.py`), the payload validation helpers of
`scripts/save_todos.py`, and the backend selector
(`scripts/storage/__init__.py`, `get_storage_backend`).

Modelling conventions:
* Python `dict`/`list` values produced by `json.load` are modelled by the
  inductive type `Json`; Python dicts preserve insertion order, so objects are
  ordered association lists.
* Filesystem and database effects are modelled by explicit state passing.
  Fallible steps return `Except`/`Option` errors; injected faults (disk full,
  failed rename, failed unlink, failed rollback) are explicit parameters so
  that the error-handling paths of the source are part of the model.
* The byte output of `json.dump(history, f, indent=2)` is modelled by
  `pyDumpsVal`, which follows CPython's pure-Python encoder with its default
  `ensure_ascii=True` (non-ASCII characters become `\uXXXX` escapes) and
  2-space indentation.
* POSIX paths are modelled as component lists; `Path.resolve()` is modelled on
  a symlink-free filesystem (`collapseDots`), which collapses `.` and `..`
  segments of an absolute path.
-/

namespace TodoLog

/-! ## Python string helpers -/

/-- Characters removed by Python's `str.strip()` (restricted to the ASCII
whitespace range; the source only ever strips configuration strings). -/
def pyIsSpace (c : Char) : Bool :=
  c = ' ' || c = '\t' || c = '\n' || c = '\r' || c = '\x0b' || c = '\x0c'

/-- Python `str.strip()`: drop leading and trailing whitespace. -/
def pyStrip (s : String) : String :=
  String.mk (((s.data.dropWhile pyIsSpace).reverse.dropWhile pyIsSpace).reverse)

/-- Python `str.lower()` (ASCII case folding; the source lowers backend
names, which are ASCII). -/
def pyLower (s : String) : String :=
  String.mk (s.data.map Char.toLower)

/-! ## PathSandbox: `_resolve_safe_path` of `scripts/storage/__init__.py`
(the identical copy `resolve_safe_path` lives in `scripts/save_todos.py`) -/

/-- Split a character list at `/` separators (Python `str.split("/")`,
written out on the character list so that it evaluates by reduction). -/
def splitSlashAux (cur : List Char) : List Char → List String
  | [] => [String.mk cur.reverse]
  | c :: rest =>
    if c = '/' then String.mk cur.reverse :: splitSlashAux [] rest
    else splitSlashAux (c :: cur) rest

/-- Components of a POSIX path string, as `pathlib.PurePosixPath` keeps them:
splitting on `/` drops empty segments and `.` segments. -/
def pathParts (s : String) : List String :=
  (splitSlashAux [] s.data).filter (fun c => !(c = "" || c = "."))

/-- Whether a path string is absolute (`PurePosixPath.is_absolute`: it
starts with `/`). -/
def pathIsAbs (s : String) : Bool :=
  match s.data with
  | c :: _ => c = '/'
  | [] => false

/-- Collapse `..` segments of an absolute path's component list, the way
`Path.resolve()` canonicalises on a symlink-free filesystem: `..` pops the
last component ( `..` at the root stays at the root). -/
def collapseDots (acc : List String) : List String → List String
  | [] => acc
  | c :: rest =>
    if c = ".." then collapseDots acc.dropLast rest
    else collapseDots (acc ++ [c]) rest

/-- `resolved.relative_to(base_resolved)` succeeds exactly when the base's
components are a prefix of the resolved components. -/
def relativeToOk : List String → List String → Bool
  | [], _ => true
  | _ :: _, [] => false
  | b :: bs, c :: cs => b = c && relativeToOk bs cs

/-- `_resolve_safe_path(base_dir, user_path)`.  `baseDir` is taken to be an
absolute path (the caller passes the project root).  Returns the resolved
component list, or `none` when the input is rejected. -/
def resolve_safe_path (baseDir : String) (userPath : String) : Option (List String) :=
  if userPath = "" || pyStrip userPath = "" then none
  else if userPath.data.contains '\x00' then none
  else
    let candidate :=
      if pathIsAbs userPath then pathParts userPath
      else pathParts baseDir ++ pathParts userPath
    let resolved := collapseDots [] candidate
    let baseResolved := collapseDots [] (pathParts baseDir)
    if relativeToOk baseResolved resolved then some resolved else none

/-! ## JSON values (Python objects passed to/from `json.load` / `json.dump`) -/

/-- A JSON value as Python's `json` module represents it.  Objects are ordered
association lists, matching Python's insertion-ordered dicts.  Numbers are
restricted to integers; the todo-log record shape contains no numbers. -/
inductive Json where
  | null
  | bool (b : Bool)
  | num (n : Int)
  | str (s : String)
  | arr (elems : List Json)
  | obj (fields : List (String × Json))

/-- Whether a JSON value is an array (`isinstance(history, list)`). -/
def Json.isArr : Json → Bool
  | .arr _ => true
  | _ => false

/-- The keys of a JSON object, in order (`dict.keys()`); `[]` on non-objects. -/
def Json.keys : Json → List String
  | .obj fields => fields.map (fun p => p.1)
  | _ => []

/-- Look a key up in a JSON object's field list (`dict.get` / `dict[k]`,
first binding wins, as in Python where keys are unique). -/
def jsonLookup (fields : List (String × Json)) (k : String) : Option Json :=
  (fields.find? (fun p => p.1 == k)).map (fun p => p.2)

/-! ## CPython's `json.dump(obj, f, indent=2)` byte output

With an `indent` argument the pure-Python encoder is used; its default
`ensure_ascii=True` escapes every character outside `0x20..0x7E` (plus `"`
and `\`), and nesting level `k` is indented by a newline and `2*k` spaces. -/

/-- One hexadecimal digit, lowercase, as CPython's `"%04x"` formatting uses. -/
def hexDigit (n : Nat) : Char :=
  if n < 10 then Char.ofNat (48 + n) else Char.ofNat (87 + n)

/-- Four lowercase hex digits of `n` (for `\uXXXX` escapes). -/
def hex4 (n : Nat) : String :=
  String.mk [hexDigit (n / 4096 % 16), hexDigit (n / 256 % 16),
             hexDigit (n / 16 % 16), hexDigit (n % 16)]

/-- The image of one character under CPython's `py_encode_basestring_ascii`:
`"` and `\` and the five short control escapes get two-character escapes,
other characters in `0x20..0x7E` pass through, everything else becomes
`\uXXXX` (a surrogate pair for code points above `0xFFFF`). -/
def escAsciiChar (c : Char) : String :=
  if c = '\\' then "\\\\"
  else if c = '"' then "\\\""
  else if c = '\x08' then "\\b"
  else if c = '\x0c' then "\\f"
  else if c = '\n' then "\\n"
  else if c = '\r' then "\\r"
  else if c = '\t' then "\\t"
  else if 0x20 ≤ c.toNat && c.toNat ≤ 0x7e then String.mk [c]
  else if c.toNat < 0x10000 then "\\u" ++ hex4 c.toNat
  else
    let n := c.toNat - 0x10000
    "\\u" ++ hex4 (0xd800 + n / 0x400) ++ "\\u" ++ hex4 (0xdc00 + n % 0x400)

/-- Concatenated escapes of a character list (the regex replacement loop). -/
def escapeChars : List Char → String
  | [] => ""
  | c :: cs => escAsciiChar c ++ escapeChars cs

/-- `py_encode_basestring_ascii`: a double-quoted, fully escaped string. -/
def encodeStringAscii (s : String) : String :=
  "\"" ++ escapeChars s.data ++ "\""

/-- Newline-plus-indentation emitted before items at nesting level `lvl`. -/
def jsonIndent (lvl : Nat) : String :=
  "\n" ++ String.mk (List.replicate (2 * lvl) ' ')

mutual

/-- `json.dump(j, f, indent=2)` byte output for a value at nesting level
`lvl` (CPython `_make_iterencode` with `item_separator=","`,
`key_separator=": "`, `ensure_ascii=True`). -/
def pyDumpsVal (lvl : Nat) : Json → String
  | .null => "null"
  | .bool true => "true"
  | .bool false => "false"
  | .num n => toString n
  | .str s => encodeStringAscii s
  | .arr [] => "[]"
  | .arr (x :: xs) =>
    "[" ++ jsonIndent (lvl + 1) ++ pyDumpsList (lvl + 1) x xs ++ jsonIndent lvl ++ "]"
  | .obj [] => "\x7b\x7d"
  | .obj (f :: fs) =>
    "\x7b" ++ jsonIndent (lvl + 1) ++ pyDumpsFields (lvl + 1) f fs ++ jsonIndent lvl ++ "\x7d"
termination_by j => sizeOf j

/-- Array elements joined by `"," + newline_indent`. -/
def pyDumpsList (lvl : Nat) (x : Json) : List Json → String
  | [] => pyDumpsVal lvl x
  | y :: ys => pyDumpsVal lvl x ++ "," ++ jsonIndent lvl ++ pyDumpsList lvl y ys
termination_by ys => sizeOf x + sizeOf ys

/-- Object members `"key": value` joined by `"," + newline_indent`. -/
def pyDumpsFields (lvl : Nat) (f : String × Json) : List (String × Json) → String
  | [] => encodeStringAscii f.1 ++ ": " ++ pyDumpsVal lvl f.2
  | g :: gs =>
    encodeStringAscii f.1 ++ ": " ++ pyDumpsVal lvl f.2 ++ "," ++ jsonIndent lvl ++
      pyDumpsFields lvl g gs
termination_by gs => sizeOf f + sizeOf gs
decreasing_by
all_goals obtain ⟨a, b⟩ := f
all_goals simp
all_goals omega

end

/-- The exact bytes `json.dump(history, f, indent=2)` writes for a history
list (`json_backend.py`, line 91); the file is opened with
`encoding="utf-8"`. -/
def jsonSerializedBytes (history : List Json) : String :=
  pyDumpsVal 0 (Json.arr history)

/-! ## FileStore: `JSONStorageBackend` of `scripts/storage/json_backend.py`

The backing file is modelled by its observable content: absent, present but
unreadable (`open`/read raises `OSError`), present but not JSON
(`json.load` raises `JSONDecodeError`), or present and parsing to a JSON
value.  A `parsed` content stands for the exact bytes on disk that parse to
that value; the failure paths of `append_entry` never write to the target,
so an unchanged content value means unchanged bytes. -/

/-- Observable content of an existing backing file. -/
inductive FileContent where
  | unreadable
  | malformed
  | parsed (j : Json)

/-- Errors of the Python exception classes the storage code raises or
catches. -/
inductive PyErr where
  | oserrorRead
  | jsonDecodeError
  | oserrorWrite
  | oserrorReplace
deriving DecidableEq

/-- Filesystem state seen by the file backend: the target file (`none` =
absent) and the number of leftover `.tmp` files in its directory. -/
structure JsonFS where
  target : Option FileContent
  tempCount : Nat

/-- `JSONStorageBackend.load_history` (`json_backend.py`, lines 40-60),
including the exception it would propagate if it did not catch it: the
`try` body raises `OSError` for an unreadable file and `JSONDecodeError`
for a malformed one; `except (json.JSONDecodeError, OSError)` turns both
into `[]`; a parsed non-array fails `isinstance(history, list)` and also
yields `[]`. -/
def json_load_historyE (file : Option FileContent) : Except PyErr (List Json) :=
  match file with
  | none => .ok []
  | some fc =>
    let attempt : Except PyErr Json :=
      match fc with
      | .unreadable => .error .oserrorRead
      | .malformed => .error .jsonDecodeError
      | .parsed j => .ok j
    match attempt with
    | .error _ => .ok []
    | .ok j =>
      match j with
      | .arr xs => .ok xs
      | _ => .ok []

/-- The history list `load_history` returns (it never raises; see
`json_load_historyE`). -/
def json_load_history (file : Option FileContent) : List Json :=
  match json_load_historyE file with
  | .ok xs => xs
  | .error _ => []

/-- Injected failures for one `append_entry` call: `failWrite` makes
`json.dump` into the temp file raise (`OSError`/`TypeError`/`ValueError`),
`failReplace` makes `os.replace` raise, `failUnlink` makes the cleanup
`os.unlink` raise. -/
structure Fault where
  failWrite : Bool
  failReplace : Bool
  failUnlink : Bool

/-- A fault-free run. -/
def noFault : Fault := ⟨false, false, false⟩

/-- `JSONStorageBackend.append_entry` (`json_backend.py`, lines 62-99):
mkdir the parent (no observable effect on the modelled state), load the
current history, append the entry, `mkstemp` a fresh temp file, `json.dump`
the new history into it, `os.replace` it onto the target.  The
`except (OSError, TypeError, ValueError)` block unlinks the temp file
best-effort (its own `OSError` is swallowed) and re-raises the original
error.  Returns (raised error if any, resulting filesystem state). -/
def json_append_entry (fs : JsonFS) (entry : Json) (f : Fault) :
    Option PyErr × JsonFS :=
  let history := json_load_history fs.target
  let history1 := history ++ [entry]
  let fs1 : JsonFS := { fs with tempCount := fs.tempCount + 1 }
  let attempt : Except PyErr JsonFS :=
    if f.failWrite then .error .oserrorWrite
    else if f.failReplace then .error .oserrorReplace
    else .ok { target := some (.parsed (.arr history1)), tempCount := fs.tempCount }
  match attempt with
  | .ok fs2 => (none, fs2)
  | .error e =>
    let fs2 := if f.failUnlink then fs1 else { fs1 with tempCount := fs.tempCount }
    (some e, fs2)

/-- Fault-free `append_entry` iterated over a list of entries (strictly
sequential appends). -/
def json_append_all (fs : JsonFS) (es : List Json) : JsonFS :=
  es.foldl (fun s e => (json_append_entry s e noFault).2) fs

/-- An empty directory: no target file, no temp files. -/
def emptyFS : JsonFS := ⟨none, 0⟩

/-! ## Payload validation: `scripts/save_todos.py` -/

/-- `validate_todo(item)` (`save_todos.py`, lines 77-82): the item is a dict
and `{"content", "status", "activeForm"}` is a subset of its keys.  Extra
keys are not inspected. -/
def validate_todo (j : Json) : Bool :=
  match j with
  | .obj fields =>
    let keys := fields.map (fun p => p.1)
    keys.contains "content" && keys.contains "status" && keys.contains "activeForm"
  | _ => false

/-- `validate_todos(todos)` (`save_todos.py`, lines 85-89): non-lists give
`[]`; otherwise the invalid items are filtered out and the valid items are
kept whole. -/
def validate_todos (j : Json) : List Json :=
  match j with
  | .arr items => items.filter validate_todo
  | _ => []

/-- Python `x or UNKNOWN_VALUE` for an optional string (`None` and `""` are
falsy). -/
def orUnknown : Option String → String
  | none => "unknown"
  | some s => if s = "" then "unknown" else s

/-- `build_log_entry` (`save_todos.py`, lines 140-151), with the generated
timestamp passed in: a dict with exactly the keys `timestamp`,
`session_id`, `cwd`, `todos`, in that insertion order. -/
def build_log_entry (ts : String) (sessionId : Option String)
    (cwd : Option String) (rawTodos : Json) : Json :=
  .obj [("timestamp", .str ts),
        ("session_id", .str (orUnknown sessionId)),
        ("cwd", .str (orUnknown cwd)),
        ("todos", .arr (validate_todos rawTodos))]

/-! ## The typed record shape (`scripts/storage/protocol.py`) -/

/-- `TodoItem` (`protocol.py`): an item with its three string fields. -/
structure TodoItem where
  content : String
  status : String
  activeForm : String
deriving DecidableEq

/-- `LogEntry` (`protocol.py`): the four-field root record. -/
structure LogEntry where
  timestamp : String
  session_id : String
  cwd : String
  todos : List TodoItem
deriving DecidableEq

/-- A todo item as it reaches the SQLite `INSERT` from decoded JSON, where
any of the three bound values may be `None` (SQL `NULL`). -/
structure RawTodoItem where
  content : Option String
  status : Option String
  activeForm : Option String
deriving DecidableEq

/-- A well-typed item is bound with three non-null values. -/
def TodoItem.toRaw (t : TodoItem) : RawTodoItem :=
  ⟨some t.content, some t.status, some t.activeForm⟩

/-! ## RelationalStore: `SQLiteStorageBackend` of
`scripts/storage/sqlite_backend.py`

The two tables of `SCHEMA_SQL` are modelled as row lists plus the
`AUTOINCREMENT` counters (SQLite `AUTOINCREMENT` ids start at 1, increase
by 1 per inserted row and are never reused).  The `NOT NULL` column
constraints are checked at insert time; rows that exist in a table
therefore carry plain strings. -/

/-- A row of `log_entries`. -/
structure EntryRow where
  id : Nat
  timestamp : String
  session_id : String
  cwd : String
deriving DecidableEq

/-- A row of `todos`. -/
structure TodoRow where
  id : Nat
  entry_id : Nat
  content : String
  status : String
  active_form : String
deriving DecidableEq

/-- The database state. -/
structure DB where
  log_entries : List EntryRow
  todos : List TodoRow
  nextEntryId : Nat
  nextTodoId : Nat
deriving DecidableEq

/-- A freshly initialised database (after `_ensure_schema`). -/
def DB.empty : DB := ⟨[], [], 1, 1⟩

/-- `sqlite3.Error` subclasses the model distinguishes. -/
inductive SqlError where
  | integrityError
deriving DecidableEq

/-- The loop `for todo in entry["todos"]: cursor.execute("INSERT INTO todos
...")` (`sqlite_backend.py`, lines 184-188).  Binding `None` to one of the
`NOT NULL` columns `content`, `status`, `active_form` raises
`sqlite3.IntegrityError`; otherwise the row is appended with the next
`AUTOINCREMENT` id. -/
def insertTodos (entryId : Nat) (db : DB) : List RawTodoItem → Except SqlError DB
  | [] => .ok db
  | t :: rest =>
    match t.content, t.status, t.activeForm with
    | some c, some s, some a =>
      insertTodos entryId
        { db with
          todos := db.todos ++ [⟨db.nextTodoId, entryId, c, s, a⟩],
          nextTodoId := db.nextTodoId + 1 } rest
    | _, _, _ => .error .integrityError

/-- `SQLiteStorageBackend.append_entry` (`sqlite_backend.py`, lines
159-198): one `BEGIN IMMEDIATE` transaction inserts the entry row
(`cursor.lastrowid` is its new id) and then every item row, and commits.
On any `sqlite3.Error` the `except` block rolls back (its own failure,
injected here as `rollbackFault`, is swallowed by `except ... pass`; either
way the uncommitted inserts are never visible once the connection closes)
and re-raises the original error.  Returns (raised error if any, the
database visible after the call). -/
def sqlite_append_entry_raw (db : DB) (timestamp sessionId cwd : String)
    (todos : List RawTodoItem) (rollbackFault : Bool) : Option SqlError × DB :=
  let entryId := db.nextEntryId
  let db1 : DB :=
    { db with
      log_entries := db.log_entries ++ [⟨entryId, timestamp, sessionId, cwd⟩],
      nextEntryId := db.nextEntryId + 1 }
  match insertTodos entryId db1 todos with
  | .ok db2 => (none, db2)
  | .error e =>
    let _ := rollbackFault
    (some e, db)

/-- `append_entry` on a well-typed `LogEntry` (every bound value a string). -/
def sqlite_append_entry (db : DB) (e : LogEntry) : Option SqlError × DB :=
  sqlite_append_entry_raw db e.timestamp e.session_id e.cwd
    (e.todos.map TodoItem.toRaw) false

/-- Fault-free typed `append_entry` iterated over a list of entries. -/
def sqlite_append_all (db : DB) (es : List LogEntry) : DB :=
  es.foldl (fun d e => (sqlite_append_entry d e).2) db

/-- The `LEFT JOIN todos t ON e.id = t.entry_id` of the two read queries:
each entry row is paired with each matching todo row, or with `NULL` when
no todo matches. -/
def leftJoin (entries : List EntryRow) (todos : List TodoRow) :
    List (EntryRow × Option TodoRow) :=
  entries.flatMap (fun e =>
    let ts := todos.filter (fun t => t.entry_id == e.id)
    if ts.isEmpty then [(e, none)] else ts.map (fun t => (e, some t)))

/-- Sort key on `t.id` with `NULL` first, as SQLite orders nulls. -/
def todoIdKey : Option TodoRow → Nat
  | none => 0
  | some t => t.id + 1

/-- The `ORDER BY e.id, t.id` comparison on joined rows. -/
def rowLe (r1 r2 : EntryRow × Option TodoRow) : Bool :=
  r1.1.id < r2.1.id || (r1.1.id == r2.1.id && todoIdKey r1.2 ≤ todoIdKey r2.2)

/-- One iteration of the row loop of `load_history` /
`get_entries_by_session` (`sqlite_backend.py`, lines 135-153): the
accumulator is the insertion-ordered `entries_map` dict; an unseen
`entry_id` appends a new entry with empty todos, and a row whose todo
columns are not all `NULL` appends one todo to its entry. -/
def insertRow (acc : List (Nat × LogEntry)) (row : EntryRow × Option TodoRow) :
    List (Nat × LogEntry) :=
  let eid := row.1.id
  let acc1 :=
    if (acc.find? (fun p => p.1 == eid)).isSome then acc
    else acc ++ [(eid, ⟨row.1.timestamp, row.1.session_id, row.1.cwd, []⟩)]
  match row.2 with
  | none => acc1
  | some t =>
    acc1.map (fun p =>
      if p.1 == eid then
        (p.1, { p.2 with todos := p.2.todos ++ [⟨t.content, t.status, t.active_form⟩] })
      else p)

/-- `list(entries_map.values())`: fold the rows and drop the keys. -/
def groupRows (rows : List (EntryRow × Option TodoRow)) : List LogEntry :=
  (rows.foldl insertRow []).map (fun p => p.2)

/-- The shared query shape of `load_history` and `get_entries_by_session`:
left-join the given entry rows to the todos, order by `(e.id, t.id)`, and
group rows back into nested entries. -/
def joinGroup (todos : List TodoRow) (entries : List EntryRow) : List LogEntry :=
  groupRows ((leftJoin entries todos).mergeSort rowLe)

/-- `SQLiteStorageBackend.load_history` (`sqlite_backend.py`, lines
105-157). -/
def sqlite_load_history (db : DB) : List LogEntry :=
  joinGroup db.todos db.log_entries

/-- `SQLiteStorageBackend.get_entries_by_session` (`sqlite_backend.py`,
lines 200-256): the same join restricted by `WHERE e.session_id = ?`. -/
def get_entries_by_session (db : DB) (sessionId : String) : List LogEntry :=
  joinGroup db.todos (db.log_entries.filter (fun e => e.session_id == sessionId))

/-- The entry reconstructed for one entry row: its three columns plus the
todos referencing it, in id order (closed form of the join-and-group
queries, proved below). -/
def entryOfRow (todos : List TodoRow) (e : EntryRow) : LogEntry :=
  ⟨e.timestamp, e.session_id, e.cwd,
    (todos.filter (fun t => t.entry_id == e.id)).map
      (fun t => ⟨t.content, t.status, t.active_form⟩)⟩

/-- Reachability invariant of the database: both tables are sorted by
strictly increasing id, ids are below the `AUTOINCREMENT` counters, and
every todo row references an entry id below the entry counter. -/
structure DB.WF (db : DB) : Prop where
  entriesSorted : db.log_entries.Pairwise (fun a b => a.id < b.id)
  entriesLt : ∀ e ∈ db.log_entries, e.id < db.nextEntryId
  todosSorted : db.todos.Pairwise (fun a b => a.id < b.id)
  todosLt : ∀ t ∈ db.todos, t.id < db.nextTodoId
  todosEntryLt : ∀ t ∈ db.todos, t.entry_id < db.nextEntryId

/-! ## BackendSelector: `get_storage_backend` of `scripts/storage/__init__.py`

`get_storage_backend` only reads configuration and resolves paths; it is
modelled as a pure function to an `Except`.  Construction of the selected
backend object (where the SQLite backend's schema initialisation performs
the first storage I/O) happens strictly after a successful return, so an
`error` result means the error is raised before any storage I/O. -/

/-- The environment variables the selector reads (`None` = unset). -/
structure Env where
  todoStorageBackend : Option String
  todoLogPath : Option String
  todoSqlitePath : Option String

/-- A raised `ValueError` with its message. -/
inductive ConfigError where
  | valueError (msg : String)
deriving DecidableEq

/-- The selected backend together with its resolved storage location. -/
inductive BackendChoice where
  | jsonBackend (logFile : List String)
  | sqliteBackend (dbPath : List String)
deriving DecidableEq

/-- `_get_json_path(project_dir)` (`storage/__init__.py`, lines 74-96):
`os.environ.get("TODO_LOG_PATH", "").strip()`; a non-empty custom path must
resolve inside the project directory or a `ValueError` is raised; otherwise
the default `.claude/todos.json` under the project directory is used.  (The
Python message quotes the custom path; the model's message omits the
repr quotes.) -/
def get_json_path (env : Env) (projectDir : String) : Except ConfigError (List String) :=
  let customPath := pyStrip (env.todoLogPath.getD "")
  if customPath ≠ "" then
    match resolve_safe_path projectDir customPath with
    | none =>
      .error (.valueError ("TODO_LOG_PATH " ++ customPath ++ " escapes project directory"))
    | some p => .ok p
  else
    .ok (pathParts projectDir ++ [".claude", "todos.json"])

/-- `_get_sqlite_path(project_dir)` (`storage/__init__.py`, lines 99-121). -/
def get_sqlite_path (env : Env) (projectDir : String) : Except ConfigError (List String) :=
  let customPath := pyStrip (env.todoSqlitePath.getD "")
  if customPath ≠ "" then
    match resolve_safe_path projectDir customPath with
    | none =>
      .error (.valueError ("TODO_SQLITE_PATH " ++ customPath ++ " escapes project directory"))
    | some p => .ok p
  else
    .ok (pathParts projectDir ++ [".claude", "todos.db"])

/-- The normalised backend name the selector dispatches on:
`os.environ.get("TODO_STORAGE_BACKEND", "json").strip().lower()`. -/
def backendTypeOf (env : Env) : String :=
  pyLower (pyStrip (env.todoStorageBackend.getD "json"))

/-- `get_storage_backend(project_dir)` (`storage/__init__.py`, lines
124-155): dispatch on the normalised backend name; `"json"` and
`"sqlite"` select their backend with its resolved path, anything else
raises `ValueError` (the Python message reprs the name; the model's
message omits the repr quotes). -/
def get_storage_backend (env : Env) (projectDir : String) :
    Except ConfigError BackendChoice :=
  let backendType := backendTypeOf env
  if backendType = "json" then
    (get_json_path env projectDir).map .jsonBackend
  else if backendType = "sqlite" then
    (get_sqlite_path env projectDir).map .sqliteBackend
  else
    .error (.valueError ("Unknown storage backend: " ++ backendType ++
      ". Expected json or sqlite."))

/-! ## Derived definitions used by the statements -/

/-- The todo rows `append_entry` inserts for a well-typed item list:
consecutive `AUTOINCREMENT` ids from `startId`, all referencing `entryId`. -/
def mkTodoRows (entryId : Nat) (startId : Nat) : List TodoItem → List TodoRow
  | [] => []
  | t :: rest => ⟨startId, entryId, t.content, t.status, t.activeForm⟩ ::
      mkTodoRows entryId (startId + 1) rest

/-- The database after one successful typed `append_entry` (closed form,
proved equal to the model's result below). -/
def appendedDB (db : DB) (e : LogEntry) : DB :=
  { log_entries := db.log_entries ++ [⟨db.nextEntryId, e.timestamp, e.session_id, e.cwd⟩],
    todos := db.todos ++ mkTodoRows db.nextEntryId db.nextTodoId e.todos,
    nextEntryId := db.nextEntryId + 1,
    nextTodoId := db.nextTodoId + e.todos.length }

/-- The JSON object a well-typed `TodoItem` decodes from / encodes to. -/
def todoItemToJson (t : TodoItem) : Json :=
  .obj [("content", .str t.content), ("status", .str t.status),
        ("activeForm", .str t.activeForm)]

/-- The JSON object a well-typed `LogEntry` decodes from / encodes to. -/
def entryToJson (e : LogEntry) : Json :=
  .obj [("timestamp", .str e.timestamp), ("session_id", .str e.session_id),
        ("cwd", .str e.cwd), ("todos", .arr (e.todos.map todoItemToJson))]

/-- Whether every character of a string is ASCII. -/
def asciiOnly (s : String) : Bool :=
  s.data.all (fun c => c.toNat < 128)

/-- Whether `needle` starts the list `hay` (helper for `occursIn`). -/
def leadsWith : List Char → List Char → Bool
  | [], _ => true
  | _ :: _, [] => false
  | a :: as, b :: bs => a = b && leadsWith as bs

/-- Whether `needle` occurs as a contiguous run inside `hay` (used to state
facts about the serialized bytes, like Python's `in` on strings). -/
def occursIn (needle : List Char) : List Char → Bool
  | [] => needle.isEmpty
  | b :: rest => leadsWith needle (b :: rest) || occursIn needle rest

/-- The block of join rows contributed by one entry row (the rows of
`leftJoin` that carry this entry). -/
def rowsFor (todos : List TodoRow) (e : EntryRow) : List (EntryRow × Option TodoRow) :=
  let ts := todos.filter (fun t => t.entry_id == e.id)
  if ts.isEmpty then [(e, none)] else ts.map (fun t => (e, some t))

/-- The three values `append_entry` binds for one item row:
`todo["content"], todo["status"], todo["activeForm"]`
(`sqlite_backend.py`, line 187).  No other key of the item dict is read. -/
def sqliteInsertParams (j : Json) : Option Json × Option Json × Option Json :=
  match j with
  | .obj fields =>
    (jsonLookup fields "content", jsonLookup fields "status",
     jsonLookup fields "activeForm")
  | _ => (none, none, none)

/-! ## Lemmas: path resolution -/

theorem collapseDots_append (xs ys : List String) (acc : List String) :
    collapseDots acc (xs ++ ys) = collapseDots (collapseDots acc xs) ys := by
  induction xs generalizing acc with
  | nil => simp [collapseDots]
  | cons c rest ih =>
    simp only [List.cons_append, collapseDots]
    by_cases h : c = ".."
    · simp [h, ih]
    · simp [h, ih]

theorem collapseDots_no_dots (xs : List String) (acc : List String)
    (h : ".." ∉ xs) : collapseDots acc xs = acc ++ xs := by
  induction xs generalizing acc with
  | nil => simp [collapseDots]
  | cons c rest ih =>
    simp only [List.mem_cons, not_or] at h
    simp [collapseDots, Ne.symm h.1, ih _ h.2]

theorem relativeToOk_append (l m : List String) :
    relativeToOk l (l ++ m) = true := by
  induction l with
  | nil => simp [relativeToOk]
  | cons b bs ih => simp [relativeToOk, ih]

theorem pyStrip_empty : pyStrip "" = "" := rfl

theorem resolve_safe_path_empty (b u : String) (h : pyStrip u = "") :
    resolve_safe_path b u = none := by
  by_cases hu : u = "" <;> simp [resolve_safe_path, hu, h]

theorem resolve_safe_path_nul (b u : String) (h : '\x00' ∈ u.data) :
    resolve_safe_path b u = none := by
  by_cases h1 : u = "" ∨ pyStrip u = ""
  · rcases h1 with h1 | h1 <;> simp [resolve_safe_path, h1]
  · rw [not_or] at h1
    simp [resolve_safe_path, h1.1, h1.2, h]

theorem resolve_safe_path_some (b u : String) (p : List String)
    (h : resolve_safe_path b u = some p) :
    p = collapseDots []
        (if pathIsAbs u then pathParts u else pathParts b ++ pathParts u) ∧
    relativeToOk (collapseDots [] (pathParts b)) p = true := by
  by_cases h1 : u = "" ∨ pyStrip u = ""
  · rcases h1 with h1 | h1 <;> simp [resolve_safe_path, h1] at h
  · rw [not_or] at h1
    by_cases h2 : '\x00' ∈ u.data
    · simp [resolve_safe_path, h1.1, h1.2, h2] at h
    · by_cases h3 : relativeToOk (collapseDots [] (pathParts b))
        (collapseDots [] (if pathIsAbs u then pathParts u
          else pathParts b ++ pathParts u)) = true
      · simp [resolve_safe_path, h1.1, h1.2, h2, h3] at h
        exact ⟨h.symm, h ▸ h3⟩
      · simp [resolve_safe_path, h1.1, h1.2, h2, h3] at h

theorem resolve_safe_path_escape (b u : String)
    (h : relativeToOk (collapseDots [] (pathParts b))
      (collapseDots [] (if pathIsAbs u then pathParts u else pathParts b ++ pathParts u))
      = false) :
    resolve_safe_path b u = none := by
  by_cases h1 : u = "" ∨ pyStrip u = ""
  · rcases h1 with h1 | h1 <;> simp [resolve_safe_path, h1]
  · rw [not_or] at h1
    by_cases h2 : '\x00' ∈ u.data
    · simp [resolve_safe_path, h1.1, h1.2, h2]
    · simp [resolve_safe_path, h1.1, h1.2, h2, h]

theorem resolve_safe_path_relative (b u : String)
    (h1 : pyStrip u ≠ "")
    (h2 : '\x00' ∉ u.data)
    (h3 : pathIsAbs u = false)
    (h4 : ".." ∉ pathParts u) :
    resolve_safe_path b u = some (collapseDots [] (pathParts b) ++ pathParts u) := by
  have hu : u ≠ "" := by
    intro hu
    exact h1 (hu ▸ pyStrip_empty)
  have hc : collapseDots [] (pathParts b ++ pathParts u)
      = collapseDots [] (pathParts b) ++ pathParts u := by
    rw [collapseDots_append, collapseDots_no_dots _ _ h4]
  simp [resolve_safe_path, hu, h1, h2, h3, hc, relativeToOk_append]

/-- Claim C4: path resolution rejects empty or all-whitespace input, input
containing a NUL byte, and any input whose fully resolved canonical form is
not equal to or nested under the canonical base directory; it accepts a
relative, `..`-free path and yields a path nested under the base.  The
model is a pure function over strings (no side effects, no existence
requirement). -/
theorem c4_path_sandbox :
    (∀ b u, pyStrip u = "" → resolve_safe_path b u = none) ∧
    (∀ b u, '\x00' ∈ u.data → resolve_safe_path b u = none) ∧
    (∀ b u p, resolve_safe_path b u = some p →
      relativeToOk (collapseDots [] (pathParts b)) p = true) ∧
    (∀ b u, relativeToOk (collapseDots [] (pathParts b))
        (collapseDots [] (if pathIsAbs u then pathParts u
          else pathParts b ++ pathParts u)) = false →
      resolve_safe_path b u = none) ∧
    (∀ b u, pyStrip u ≠ "" → '\x00' ∉ u.data →
      pathIsAbs u = false → ".." ∉ pathParts u →
      resolve_safe_path b u = some (collapseDots [] (pathParts b) ++ pathParts u) ∧
      relativeToOk (collapseDots [] (pathParts b))
        (collapseDots [] (pathParts b) ++ pathParts u) = true) :=
  ⟨resolve_safe_path_empty,
   resolve_safe_path_nul,
   fun b u p h => (resolve_safe_path_some b u p h).2,
   resolve_safe_path_escape,
   fun b u h1 h2 h3 h4 =>
     ⟨resolve_safe_path_relative b u h1 h2 h3 h4, relativeToOk_append _ _⟩⟩

/-- Witness for C4 at the spec's concrete inputs: base `/proj` rejects
`"  "`, a NUL-containing path, `../x` and `/etc/passwd`, and accepts
`a/b/c`, yielding `/proj/a/b/c`. -/
theorem c4_path_sandbox_witness :
    resolve_safe_path "/proj" "  " = none ∧
    resolve_safe_path "/proj" "a\x00b" = none ∧
    resolve_safe_path "/proj" "../x" = none ∧
    resolve_safe_path "/proj" "/etc/passwd" = none ∧
    resolve_safe_path "/proj" "a/b/c" = some ["proj", "a", "b", "c"] :=
  ⟨c4_path_sandbox.1 "/proj" "  " (by decide),
   c4_path_sandbox.2.1 "/proj" "a\x00b" (by decide),
   c4_path_sandbox.2.2.2.1 "/proj" "../x" (by decide),
   c4_path_sandbox.2.2.2.1 "/proj" "/etc/passwd" (by decide),
   by
     have h := (c4_path_sandbox.2.2.2.2 "/proj" "a/b/c" (by decide) (by decide)
       (by decide) (by decide)).1
     simpa using h⟩

/-! ## Lemmas: file backend -/

theorem json_load_historyE_ok (file : Option FileContent) :
    json_load_historyE file = .ok (json_load_history file) := by
  rcases file with _ | fc
  · rfl
  · rcases fc with _ | _ | j
    · rfl
    · rfl
    · rcases j <;> rfl

theorem json_append_entry_noFault (fs : JsonFS) (entry : Json) :
    json_append_entry fs entry noFault =
      (none,
       ⟨some (.parsed (.arr (json_load_history fs.target ++ [entry]))),
        fs.tempCount⟩) := by
  rfl

theorem json_load_history_parsed_arr (xs : List Json) :
    json_load_history (some (.parsed (.arr xs))) = xs := rfl

theorem json_append_load (fs : JsonFS) (entry : Json) :
    json_load_history (json_append_entry fs entry noFault).2.target =
      json_load_history fs.target ++ [entry] := by
  rw [json_append_entry_noFault]
  rfl

theorem json_append_all_load (fs : JsonFS) (es : List Json) :
    json_load_history (json_append_all fs es).target =
      json_load_history fs.target ++ es := by
  induction es generalizing fs with
  | nil => simp [json_append_all]
  | cons e rest ih =>
    show json_load_history
        (json_append_all (json_append_entry fs e noFault).2 rest).target = _
    rw [ih, json_append_load, List.append_assoc]
    rfl

theorem json_append_fault (fs : JsonFS) (entry : Json) (f : Fault)
    (h : f.failWrite = true ∨ f.failReplace = true) :
    (json_append_entry fs entry f).1 =
      some (if f.failWrite then PyErr.oserrorWrite else PyErr.oserrorReplace) ∧
    (json_append_entry fs entry f).2.target = fs.target ∧
    (f.failUnlink = false →
      (json_append_entry fs entry f).2.tempCount = fs.tempCount) := by
  rcases f with ⟨fw, fr, fu⟩
  rcases fw <;> rcases fr <;> rcases fu <;> simp_all [json_append_entry]

/-- Claim C2: if serialization into the temp file or the final atomic
replace fails, `append_entry` re-raises the original error (the best-effort
`os.unlink`'s own failure never replaces it), the temp file is removed
whenever the unlink succeeds, and the target file is exactly as before the
call (the failure paths never write to the target). -/
theorem c2_json_append_failure (fs : JsonFS) (entry : Json) (f : Fault)
    (h : f.failWrite = true ∨ f.failReplace = true) :
    (json_append_entry fs entry f).1 =
      some (if f.failWrite then PyErr.oserrorWrite else PyErr.oserrorReplace) ∧
    (json_append_entry fs entry f).2.target = fs.target ∧
    (f.failUnlink = false →
      (json_append_entry fs entry f).2.tempCount = fs.tempCount) :=
  json_append_fault fs entry f h

/-- Witness for C2: from a target holding two parsed entries, a failing
`os.replace` with a failing cleanup unlink still reports the replace error
and leaves the target untouched; with a succeeding unlink the temp file is
gone. -/
theorem c2_json_append_failure_witness :
    ((json_append_entry ⟨some (.parsed (.arr [.null, .bool true])), 0⟩ (.str "e")
        ⟨false, true, true⟩).1 = some PyErr.oserrorReplace ∧
      (json_append_entry ⟨some (.parsed (.arr [.null, .bool true])), 0⟩ (.str "e")
        ⟨false, true, true⟩).2.target = some (.parsed (.arr [.null, .bool true]))) ∧
    ((json_append_entry ⟨some (.parsed (.arr [.null, .bool true])), 0⟩ (.str "e")
        ⟨true, false, false⟩).2.tempCount = 0) := by
  refine ⟨?_, ?_⟩
  · have h := c2_json_append_failure ⟨some (.parsed (.arr [.null, .bool true])), 0⟩
      (.str "e") ⟨false, true, true⟩ (Or.inr rfl)
    exact ⟨h.1, h.2.1⟩
  · exact (c2_json_append_failure ⟨some (.parsed (.arr [.null, .bool true])), 0⟩
      (.str "e") ⟨true, false, false⟩ (Or.inl rfl)).2.2 rfl

/-- Claim C5: `load_history` of the file backend returns the empty sequence
for an absent file, for a file that fails to parse, and for a file whose
parsed top-level value is not an array; it never raises (`json_load_historyE`
carries the exception channel of the Python function, and every case is
`ok`). -/
theorem c5_json_load_corruption :
    (json_load_historyE none = .ok []) ∧
    (json_load_historyE (some .malformed) = .ok []) ∧
    (∀ j, j.isArr = false → json_load_historyE (some (.parsed j)) = .ok []) ∧
    (∀ xs, json_load_historyE (some (.parsed (.arr xs))) = .ok xs) ∧
    (∀ file, ∃ xs, json_load_historyE file = .ok xs) :=
  ⟨rfl, rfl,
   fun j h => by
     rcases j <;> first
       | rfl
       | exact absurd h (by simp [Json.isArr]),
   fun xs => rfl,
   fun file => ⟨json_load_history file, json_load_historyE_ok file⟩⟩

/-- Witness for C5 at a parsed non-array top level (a JSON object). -/
theorem c5_json_load_corruption_witness :
    json_load_historyE (some (.parsed (.obj [("a", .null)]))) = .ok [] :=
  c5_json_load_corruption.2.2.1 (.obj [("a", .null)]) rfl

/-! ## Lemmas: SQLite append -/

theorem insertTodos_ok (ts : List TodoItem) (entryId : Nat) (db : DB) :
    insertTodos entryId db (ts.map TodoItem.toRaw) =
      .ok { db with
            todos := db.todos ++ mkTodoRows entryId db.nextTodoId ts,
            nextTodoId := db.nextTodoId + ts.length } := by
  induction ts generalizing db with
  | nil => simp [insertTodos, mkTodoRows]
  | cons t rest ih =>
    simp only [List.map_cons, insertTodos, TodoItem.toRaw, ih, mkTodoRows]
    simp [List.append_assoc]
    omega

theorem insertTodos_bad (ts : List RawTodoItem) (entryId : Nat) (db : DB)
    (h : ∃ t ∈ ts, t.content = none ∨ t.status = none ∨ t.activeForm = none) :
    insertTodos entryId db ts = .error .integrityError := by
  induction ts generalizing db with
  | nil => simp at h
  | cons t rest ih =>
    rcases t with ⟨c, s, a⟩
    rcases c with _ | c
    · simp [insertTodos]
    · rcases s with _ | s
      · simp [insertTodos]
      · rcases a with _ | a
        · simp [insertTodos]
        · simp only [insertTodos]
          apply ih
          simp only [List.mem_cons] at h
          rcases h with ⟨t, ht | ht, hbad⟩
          · subst ht
            simp at hbad
          · exact ⟨t, ht, hbad⟩

theorem sqlite_append_entry_eq (db : DB) (e : LogEntry) :
    sqlite_append_entry db e = (none, appendedDB db e) := by
  simp only [sqlite_append_entry, sqlite_append_entry_raw, insertTodos_ok]
  rfl

theorem sqlite_append_raw_bad (db : DB) (ts sid cwd : String)
    (todos : List RawTodoItem) (rbf : Bool)
    (h : ∃ t ∈ todos, t.content = none ∨ t.status = none ∨ t.activeForm = none) :
    sqlite_append_entry_raw db ts sid cwd todos rbf = (some .integrityError, db) := by
  simp only [sqlite_append_entry_raw, insertTodos_bad _ _ _ h]

theorem mkTodoRows_map (ts : List TodoItem) (entryId n : Nat) :
    (mkTodoRows entryId n ts).map
      (fun t => (⟨t.content, t.status, t.active_form⟩ : TodoItem)) = ts := by
  induction ts generalizing n with
  | nil => rfl
  | cons t rest ih => simp [mkTodoRows, ih]

theorem mkTodoRows_mem (ts : List TodoItem) (entryId n : Nat) (r : TodoRow)
    (h : r ∈ mkTodoRows entryId n ts) :
    r.entry_id = entryId ∧ n ≤ r.id ∧ r.id < n + ts.length := by
  induction ts generalizing n with
  | nil => simp [mkTodoRows] at h
  | cons t rest ih =>
    simp only [mkTodoRows, List.mem_cons] at h
    rcases h with h | h
    · subst h
      simp
    · have h3 := ih (n + 1) h
      simp only [List.length_cons]
      exact ⟨h3.1, by omega, by omega⟩

theorem mkTodoRows_sorted (ts : List TodoItem) (entryId n : Nat) :
    (mkTodoRows entryId n ts).Pairwise (fun a b => a.id < b.id) := by
  induction ts generalizing n with
  | nil => exact List.Pairwise.nil
  | cons t rest ih =>
    simp only [mkTodoRows, List.pairwise_cons]
    refine ⟨fun r hr => ?_, ih (n + 1)⟩
    have h3 := mkTodoRows_mem rest entryId (n + 1) r hr
    omega

theorem mkTodoRows_filter_self (ts : List TodoItem) (entryId n : Nat) :
    (mkTodoRows entryId n ts).filter (fun t => t.entry_id == entryId) =
      mkTodoRows entryId n ts := by
  rw [List.filter_eq_self]
  intro r hr
  simp [(mkTodoRows_mem ts entryId n r hr).1]

theorem mkTodoRows_filter_ne (ts : List TodoItem) (entryId n k : Nat)
    (h : k ≠ entryId) :
    (mkTodoRows entryId n ts).filter (fun t => t.entry_id == k) = [] := by
  rw [List.filter_eq_nil_iff]
  intro r hr
  simp [(mkTodoRows_mem ts entryId n r hr).1, Ne.symm h]

theorem appendedDB_WF (db : DB) (e : LogEntry) (h : db.WF) :
    (appendedDB db e).WF := by
  constructor
  · simp only [appendedDB]
    rw [List.pairwise_append]
    refine ⟨h.entriesSorted, by simp, fun a ha b hb => ?_⟩
    simp only [List.mem_singleton] at hb
    subst hb
    exact h.entriesLt a ha
  · intro a ha
    simp only [appendedDB, List.mem_append, List.mem_singleton] at ha
    rcases ha with ha | ha
    · have := h.entriesLt a ha
      simp only [appendedDB]
      omega
    · subst ha
      simp [appendedDB]
  · simp only [appendedDB]
    rw [List.pairwise_append]
    refine ⟨h.todosSorted, mkTodoRows_sorted _ _ _, fun a ha b hb => ?_⟩
    have h1 := h.todosLt a ha
    have h2 := (mkTodoRows_mem _ _ _ b hb).2.1
    omega
  · intro t ht
    simp only [appendedDB, List.mem_append] at ht
    rcases ht with ht | ht
    · have := h.todosLt t ht
      simp only [appendedDB]
      omega
    · have := (mkTodoRows_mem _ _ _ t ht).2.2
      simp only [appendedDB]
      omega
  · intro t ht
    simp only [appendedDB, List.mem_append] at ht
    rcases ht with ht | ht
    · have := h.todosEntryLt t ht
      simp only [appendedDB]
      omega
    · have := (mkTodoRows_mem _ _ _ t ht).1
      simp only [appendedDB]
      omega

theorem DB_empty_WF : DB.empty.WF := by
  constructor <;> simp [DB.empty]

/-! ## Lemmas: SQLite join-and-group queries -/

theorem leftJoin_eq_flatMap (entries : List EntryRow) (todos : List TodoRow) :
    leftJoin entries todos = entries.flatMap (rowsFor todos) := rfl

theorem rowsFor_fst (todos : List TodoRow) (e : EntryRow)
    (r : EntryRow × Option TodoRow) (h : r ∈ rowsFor todos e) : r.1 = e := by
  simp only [rowsFor] at h
  split at h
  · simp only [List.mem_singleton] at h
    simp [h]
  · simp only [List.mem_map] at h
    obtain ⟨t, _, ht⟩ := h
    simp [← ht]

theorem rowsFor_pairwise (todos : List TodoRow) (e : EntryRow)
    (h : todos.Pairwise (fun a b => a.id < b.id)) :
    (rowsFor todos e).Pairwise (fun a b => rowLe a b = true) := by
  simp only [rowsFor]
  split
  · simp
  · rw [List.pairwise_map]
    refine (h.filter _).imp ?_
    intro a b hab
    simp only [rowLe, todoIdKey]
    simp
    omega

theorem rowLe_of_lt (e1 e2 : EntryRow) (t1 t2 : Option TodoRow)
    (h : e1.id < e2.id) : rowLe (e1, t1) (e2, t2) = true := by
  simp [rowLe, h]

theorem leftJoin_pairwise (entries : List EntryRow) (todos : List TodoRow)
    (he : entries.Pairwise (fun a b => a.id < b.id))
    (ht : todos.Pairwise (fun a b => a.id < b.id)) :
    (leftJoin entries todos).Pairwise (fun a b => rowLe a b = true) := by
  rw [leftJoin_eq_flatMap]
  induction entries with
  | nil => exact List.Pairwise.nil
  | cons e es ih =>
    rw [List.pairwise_cons] at he
    rw [List.flatMap_cons, List.pairwise_append]
    refine ⟨rowsFor_pairwise todos e ht, ih he.2, fun a ha b hb => ?_⟩
    simp only [List.mem_flatMap] at hb
    obtain ⟨e2, he2, hb⟩ := hb
    have h1 := rowsFor_fst todos e a ha
    have h2 := rowsFor_fst todos e2 b hb
    rcases a with ⟨a1, a2⟩
    rcases b with ⟨b1, b2⟩
    simp only at h1 h2
    subst h1
    subst h2
    exact rowLe_of_lt _ _ _ _ (he.1 _ he2)

theorem leftJoin_mergeSort (entries : List EntryRow) (todos : List TodoRow)
    (he : entries.Pairwise (fun a b => a.id < b.id))
    (ht : todos.Pairwise (fun a b => a.id < b.id)) :
    (leftJoin entries todos).mergeSort rowLe = leftJoin entries todos :=
  List.mergeSort_of_sorted (leftJoin_pairwise entries todos he ht)

theorem find_none_of_fresh (acc : List (Nat × LogEntry)) (k : Nat)
    (h : ∀ p ∈ acc, p.1 ≠ k) : acc.find? (fun p => p.1 == k) = none :=
  List.find?_eq_none.2 (fun p hp => by simp [h p hp])

theorem map_upd_unchanged (acc : List (Nat × LogEntry)) (k : Nat)
    (f : Nat × LogEntry → Nat × LogEntry) (h : ∀ p ∈ acc, p.1 ≠ k) :
    acc.map (fun p => if p.1 == k then f p else p) = acc := by
  induction acc with
  | nil => rfl
  | cons p rest ih =>
    simp only [List.map_cons]
    rw [if_neg (by simp [h p (List.mem_cons_self p rest)]),
      ih (fun q hq => h q (List.mem_cons_of_mem _ hq))]

theorem insertRow_fresh_none (acc : List (Nat × LogEntry)) (e : EntryRow)
    (h : ∀ p ∈ acc, p.1 ≠ e.id) :
    insertRow acc (e, none) =
      acc ++ [(e.id, ⟨e.timestamp, e.session_id, e.cwd, []⟩)] := by
  simp [insertRow, find_none_of_fresh acc e.id h]

theorem insertRow_fresh_some (acc : List (Nat × LogEntry)) (e : EntryRow)
    (t : TodoRow) (h : ∀ p ∈ acc, p.1 ≠ e.id) :
    insertRow acc (e, some t) =
      acc ++ [(e.id,
        ⟨e.timestamp, e.session_id, e.cwd, [⟨t.content, t.status, t.active_form⟩]⟩)] := by
  simp only [insertRow, find_none_of_fresh acc e.id h, Option.isSome_none,
    Bool.false_eq_true, if_false, List.map_append, map_upd_unchanged acc e.id _ h]
  simp

theorem insertRow_last_some (acc : List (Nat × LogEntry)) (e : EntryRow)
    (ent : LogEntry) (t : TodoRow) (h : ∀ p ∈ acc, p.1 ≠ e.id) :
    insertRow (acc ++ [(e.id, ent)]) (e, some t) =
      acc ++ [(e.id,
        { ent with todos := ent.todos ++ [⟨t.content, t.status, t.active_form⟩] })] := by
  have hfind : ((acc ++ [(e.id, ent)]).find? (fun p => p.1 == e.id)).isSome = true := by
    rw [List.find?_isSome]
    exact ⟨(e.id, ent), by simp⟩
  simp only [insertRow, hfind, if_true, List.map_append,
    map_upd_unchanged acc e.id _ h]
  simp

theorem foldl_insertRow_block (ts : List TodoRow) (acc : List (Nat × LogEntry))
    (e : EntryRow) (ent : LogEntry) (h : ∀ p ∈ acc, p.1 ≠ e.id) :
    (ts.map (fun t => (e, some t))).foldl insertRow (acc ++ [(e.id, ent)]) =
      acc ++ [(e.id,
        { ent with
          todos := ent.todos ++
            ts.map (fun t => ⟨t.content, t.status, t.active_form⟩) })] := by
  induction ts generalizing ent with
  | nil => simp
  | cons t ts ih =>
    simp only [List.map_cons, List.foldl_cons, insertRow_last_some acc e ent t h, ih]
    simp

theorem foldl_insertRow_rowsFor (todos : List TodoRow)
    (acc : List (Nat × LogEntry)) (e : EntryRow)
    (h : ∀ p ∈ acc, p.1 ≠ e.id) :
    (rowsFor todos e).foldl insertRow acc = acc ++ [(e.id, entryOfRow todos e)] := by
  simp only [rowsFor]
  split
  · rename_i hemp
    rw [List.isEmpty_iff] at hemp
    simp [insertRow_fresh_none acc e h, entryOfRow, hemp]
  · rename_i hemp
    rcases hts : todos.filter (fun t => t.entry_id == e.id) with _ | ⟨t, ts⟩
    · rw [hts] at hemp
      simp at hemp
    · rw [hts]
      simp only [List.map_cons, List.foldl_cons, insertRow_fresh_some acc e t h,
        foldl_insertRow_block ts acc e _ h]
      simp [entryOfRow, hts]

theorem foldl_insertRow_flatMap (todos : List TodoRow) (entries : List EntryRow)
    (acc : List (Nat × LogEntry))
    (he : entries.Pairwise (fun a b => a.id < b.id))
    (h : ∀ e ∈ entries, ∀ p ∈ acc, p.1 ≠ e.id) :
    (entries.flatMap (rowsFor todos)).foldl insertRow acc =
      acc ++ entries.map (fun e => (e.id, entryOfRow todos e)) := by
  induction entries generalizing acc with
  | nil => simp
  | cons e es ih =>
    rw [List.pairwise_cons] at he
    have hfresh : ∀ a ∈ es, ∀ p ∈ acc ++ [(e.id, entryOfRow todos e)], p.1 ≠ a.id := by
      intro a ha p hp
      simp only [List.mem_append, List.mem_singleton] at hp
      rcases hp with hp | hp
      · exact h a (List.mem_cons_of_mem _ ha) p hp
      · subst hp
        exact Nat.ne_of_lt (he.1 a ha)
    rw [List.flatMap_cons, List.foldl_append,
      foldl_insertRow_rowsFor todos acc e (h e (List.mem_cons_self e es)),
      ih _ he.2 hfresh]
    simp

theorem joinGroup_closed (todos : List TodoRow) (entries : List EntryRow)
    (he : entries.Pairwise (fun a b => a.id < b.id))
    (ht : todos.Pairwise (fun a b => a.id < b.id)) :
    joinGroup todos entries = entries.map (entryOfRow todos) := by
  rw [joinGroup, leftJoin_mergeSort entries todos he ht, groupRows,
    leftJoin_eq_flatMap,
    foldl_insertRow_flatMap todos entries [] he (by simp)]
  simp [List.map_map, Function.comp]

theorem sqlite_load_history_closed (db : DB) (h : db.WF) :
    sqlite_load_history db = db.log_entries.map (entryOfRow db.todos) :=
  joinGroup_closed db.todos db.log_entries h.entriesSorted h.todosSorted

theorem get_entries_by_session_closed (db : DB) (sid : String) (h : db.WF) :
    get_entries_by_session db sid =
      (db.log_entries.filter (fun e => e.session_id == sid)).map
        (entryOfRow db.todos) :=
  joinGroup_closed db.todos _ (h.entriesSorted.filter _) h.todosSorted

theorem entryOfRow_append_ne (todos : List TodoRow) (ts : List TodoItem)
    (entryId n : Nat) (e : EntryRow) (h : e.id ≠ entryId) :
    entryOfRow (todos ++ mkTodoRows entryId n ts) e = entryOfRow todos e := by
  simp only [entryOfRow, List.filter_append,
    mkTodoRows_filter_ne ts entryId n e.id h]
  simp

theorem entryOfRow_append_new (todos : List TodoRow) (ts : List TodoItem)
    (entryId n : Nat) (e : EntryRow) (hid : e.id = entryId)
    (h : ∀ t ∈ todos, t.entry_id ≠ entryId) :
    entryOfRow (todos ++ mkTodoRows entryId n ts) e =
      ⟨e.timestamp, e.session_id, e.cwd, ts⟩ := by
  have hold : todos.filter (fun t => t.entry_id == entryId) = [] := by
    rw [List.filter_eq_nil_iff]
    intro t htm
    simp [h t htm]
  simp only [entryOfRow, List.filter_append, hid, hold,
    mkTodoRows_filter_self ts entryId n, List.nil_append, mkTodoRows_map]

theorem appendedDB_load (db : DB) (e : LogEntry) (h : db.WF) :
    sqlite_load_history (appendedDB db e) = sqlite_load_history db ++ [e] := by
  rw [sqlite_load_history_closed _ (appendedDB_WF db e h),
    sqlite_load_history_closed db h]
  show (db.log_entries ++
      [(⟨db.nextEntryId, e.timestamp, e.session_id, e.cwd⟩ : EntryRow)]).map
      (entryOfRow (appendedDB db e).todos) = _
  rw [List.map_append, List.map_singleton]
  congr 1
  · apply List.map_congr_left
    intro a ha
    exact entryOfRow_append_ne db.todos e.todos db.nextEntryId db.nextTodoId a
      (Nat.ne_of_lt (h.entriesLt a ha))
  · show [entryOfRow (db.todos ++ mkTodoRows db.nextEntryId db.nextTodoId e.todos)
        (⟨db.nextEntryId, e.timestamp, e.session_id, e.cwd⟩ : EntryRow)] = [e]
    rw [entryOfRow_append_new db.todos e.todos db.nextEntryId db.nextTodoId _ rfl
      (fun t ht => Nat.ne_of_lt (h.todosEntryLt t ht))]

theorem sqlite_append_load (db : DB) (e : LogEntry) (h : db.WF) :
    (sqlite_append_entry db e).1 = none ∧
    sqlite_load_history (sqlite_append_entry db e).2 =
      sqlite_load_history db ++ [e] ∧
    (sqlite_append_entry db e).2.WF := by
  rw [sqlite_append_entry_eq]
  exact ⟨rfl, appendedDB_load db e h, appendedDB_WF db e h⟩

theorem sqlite_append_all_load (db : DB) (es : List LogEntry) (h : db.WF) :
    sqlite_load_history (sqlite_append_all db es) =
      sqlite_load_history db ++ es ∧ (sqlite_append_all db es).WF := by
  induction es generalizing db with
  | nil => exact ⟨by simp [sqlite_append_all], h⟩
  | cons e rest ih =>
    have hstep := sqlite_append_load db e h
    have hrest := ih (sqlite_append_entry db e).2 hstep.2.2
    refine ⟨?_, hrest.2⟩
    show sqlite_load_history (sqlite_append_all (sqlite_append_entry db e).2 rest) = _
    rw [hrest.1, hstep.2.1, List.append_assoc]
    rfl

theorem get_entries_append (db : DB) (e : LogEntry) (h : db.WF) :
    get_entries_by_session (appendedDB db e) e.session_id =
      get_entries_by_session db e.session_id ++ [e] := by
  rw [get_entries_by_session_closed _ _ (appendedDB_WF db e h),
    get_entries_by_session_closed db _ h]
  show ((db.log_entries ++
      [(⟨db.nextEntryId, e.timestamp, e.session_id, e.cwd⟩ : EntryRow)]).filter
      (fun r => r.session_id == e.session_id)).map
      (entryOfRow (appendedDB db e).todos) = _
  rw [List.filter_append]
  have hnew : ([(⟨db.nextEntryId, e.timestamp, e.session_id, e.cwd⟩ : EntryRow)].filter
      (fun r => r.session_id == e.session_id)) =
      [⟨db.nextEntryId, e.timestamp, e.session_id, e.cwd⟩] := by
    simp
  rw [hnew, List.map_append, List.map_singleton]
  congr 1
  · apply List.map_congr_left
    intro a ha
    exact entryOfRow_append_ne db.todos e.todos db.nextEntryId db.nextTodoId a
      (Nat.ne_of_lt (h.entriesLt a (List.mem_of_mem_filter ha)))
  · show [entryOfRow (db.todos ++ mkTodoRows db.nextEntryId db.nextTodoId e.todos)
        (⟨db.nextEntryId, e.timestamp, e.session_id, e.cwd⟩ : EntryRow)] = [e]
    rw [entryOfRow_append_new db.todos e.todos db.nextEntryId db.nextTodoId _ rfl
      (fun t ht => Nat.ne_of_lt (h.todosEntryLt t ht))]

theorem sqlite_append_raw_ok (db : DB) (ts sid cwd : String)
    (todos : List TodoItem) (rbf : Bool) :
    sqlite_append_entry_raw db ts sid cwd (todos.map TodoItem.toRaw) rbf =
      (none, appendedDB db ⟨ts, sid, cwd, todos⟩) := by
  simp only [sqlite_append_entry_raw, insertTodos_ok]
  rfl

theorem mkTodoRows_length (ts : List TodoItem) (entryId n : Nat) :
    (mkTodoRows entryId n ts).length = ts.length := by
  induction ts generalizing n with
  | nil => rfl
  | cons t rest ih => simp [mkTodoRows, ih]

theorem sqlite_load_history_empty : sqlite_load_history DB.empty = [] := by
  rw [sqlite_load_history_closed DB.empty DB_empty_WF]
  rfl

theorem get_entries_by_session_empty (sid : String) :
    get_entries_by_session DB.empty sid = [] := by
  rw [get_entries_by_session_closed DB.empty sid DB_empty_WF]
  rfl

/-- Claim C1: for both backends, `append_entry(e)` followed by
`load_history()` returns the previous `load_history()` result with `e`
appended, and N strictly sequential appends from an empty store yield
exactly the N entries in append order.  For the relational backend the
previous state ranges over the reachable (well-formed) databases. -/
theorem c1_append_then_load :
    (∀ (fs : JsonFS) (entry : Json),
      (json_append_entry fs entry noFault).1 = none ∧
      json_load_history (json_append_entry fs entry noFault).2.target =
        json_load_history fs.target ++ [entry]) ∧
    (∀ (es : List Json),
      json_load_history (json_append_all emptyFS es).target = es) ∧
    (∀ (db : DB) (e : LogEntry), db.WF →
      (sqlite_append_entry db e).1 = none ∧
      sqlite_load_history (sqlite_append_entry db e).2 =
        sqlite_load_history db ++ [e]) ∧
    (∀ (es : List LogEntry),
      sqlite_load_history (sqlite_append_all DB.empty es) = es) :=
  ⟨fun fs entry => ⟨by rw [json_append_entry_noFault], json_append_load fs entry⟩,
   fun es => by
     rw [json_append_all_load emptyFS es]
     rfl,
   fun db e h => ⟨(sqlite_append_load db e h).1, (sqlite_append_load db e h).2.1⟩,
   fun es => by
     rw [(sqlite_append_all_load DB.empty es DB_empty_WF).1,
       sqlite_load_history_empty]
     rfl⟩

/-- Witness for C1: appending one concrete entry to each empty backend and
reloading returns exactly that entry. -/
theorem c1_append_then_load_witness :
    json_load_history (json_append_entry emptyFS (.str "x") noFault).2.target =
      [.str "x"] ∧
    (sqlite_append_entry DB.empty ⟨"t1", "s1", "/c", [⟨"a", "pending", "A"⟩]⟩).1 =
      none ∧
    sqlite_load_history
      (sqlite_append_entry DB.empty ⟨"t1", "s1", "/c", [⟨"a", "pending", "A"⟩]⟩).2 =
      [⟨"t1", "s1", "/c", [⟨"a", "pending", "A"⟩]⟩] := by
  have hj := (c1_append_then_load.1 emptyFS (.str "x")).2
  have hs := c1_append_then_load.2.2.1 DB.empty
    ⟨"t1", "s1", "/c", [⟨"a", "pending", "A"⟩]⟩ DB_empty_WF
  refine ⟨by rw [hj]; rfl, hs.1, ?_⟩
  rw [hs.2, sqlite_load_history_empty]
  rfl

/-- Claim C3: one transaction inserts the entry row and all item rows;
binding a `NULL` to a `NOT NULL` item column makes the call raise the
original `IntegrityError` (for any behaviour of the swallowed best-effort
rollback) and leaves the database exactly as before — same entry count,
same item count, no partial rows; with all values non-null the whole entry
and all its items are committed together. -/
theorem c3_sqlite_transaction :
    (∀ (db : DB) (ts sid cwd : String) (todos : List RawTodoItem) (rbf : Bool),
      (∃ t ∈ todos, t.content = none ∨ t.status = none ∨ t.activeForm = none) →
      sqlite_append_entry_raw db ts sid cwd todos rbf =
        (some .integrityError, db) ∧
      (sqlite_append_entry_raw db ts sid cwd todos rbf).2.log_entries.length =
        db.log_entries.length ∧
      (sqlite_append_entry_raw db ts sid cwd todos rbf).2.todos.length =
        db.todos.length) ∧
    (∀ (db : DB) (ts sid cwd : String) (todos : List TodoItem) (rbf : Bool),
      sqlite_append_entry_raw db ts sid cwd (todos.map TodoItem.toRaw) rbf =
        (none, appendedDB db ⟨ts, sid, cwd, todos⟩) ∧
      (appendedDB db ⟨ts, sid, cwd, todos⟩).log_entries.length =
        db.log_entries.length + 1 ∧
      (appendedDB db ⟨ts, sid, cwd, todos⟩).todos.length =
        db.todos.length + todos.length) :=
  ⟨fun db ts sid cwd todos rbf h => by
     have heq := sqlite_append_raw_bad db ts sid cwd todos rbf h
     exact ⟨heq, by rw [heq], by rw [heq]⟩,
   fun db ts sid cwd todos rbf => by
     refine ⟨sqlite_append_raw_ok db ts sid cwd todos rbf, ?_, ?_⟩
     · simp [appendedDB]
     · simp only [appendedDB]
       rw [List.length_append, mkTodoRows_length]⟩

/-- Witness for C3: an item list whose second item has a null `content`
makes the call fail with `IntegrityError` and leaves the database empty;
the same list with the null replaced commits one entry and two items. -/
theorem c3_sqlite_transaction_witness :
    sqlite_append_entry_raw DB.empty "t" "s" "/c"
      [⟨some "Valid", some "pending", some "Doing"⟩,
       ⟨none, some "pending", some "Doing"⟩] true =
      (some .integrityError, DB.empty) ∧
    sqlite_append_entry_raw DB.empty "t" "s" "/c"
      ([⟨"Valid", "pending", "Doing"⟩, ⟨"B", "done", "D"⟩].map TodoItem.toRaw)
      true =
      (none, appendedDB DB.empty
        ⟨"t", "s", "/c", [⟨"Valid", "pending", "Doing"⟩, ⟨"B", "done", "D"⟩]⟩) ∧
    (appendedDB DB.empty
      ⟨"t", "s", "/c", [⟨"Valid", "pending", "Doing"⟩, ⟨"B", "done", "D"⟩]⟩).todos.length
      = 2 := by
  refine ⟨?_, ?_, ?_⟩
  · exact (c3_sqlite_transaction.1 DB.empty "t" "s" "/c" _ true
      ⟨⟨none, some "pending", some "Doing"⟩, by simp, Or.inl rfl⟩).1
  · exact (c3_sqlite_transaction.2 DB.empty "t" "s" "/c" _ true).1
  · exact (c3_sqlite_transaction.2 DB.empty "t" "s" "/c"
      [⟨"Valid", "pending", "Doing"⟩, ⟨"B", "done", "D"⟩] true).2.2

/-- Claim C6: an entry appended with an empty item list reloads (via
`load_history` and via `get_entries_by_session`) with `todos` equal to the
empty sequence — the result type is a list, never null, and the all-null
left-join row is filtered out rather than kept as a phantom item; reloaded
entries are grouped per entry id, enumerated in entry-id order with each
entry's items in item-id order (the closed form over the id-sorted
tables). -/
theorem c6_empty_todos_roundtrip :
    (∀ (db : DB) (ts sid cwd : String), db.WF →
      sqlite_load_history (sqlite_append_entry db ⟨ts, sid, cwd, []⟩).2 =
        sqlite_load_history db ++ [⟨ts, sid, cwd, []⟩] ∧
      get_entries_by_session (sqlite_append_entry db ⟨ts, sid, cwd, []⟩).2 sid =
        get_entries_by_session db sid ++ [⟨ts, sid, cwd, []⟩]) ∧
    (∀ (db : DB), db.WF →
      sqlite_load_history db = db.log_entries.map (entryOfRow db.todos) ∧
      ∀ sid, get_entries_by_session db sid =
        (db.log_entries.filter (fun e => e.session_id == sid)).map
          (entryOfRow db.todos)) :=
  ⟨fun db ts sid cwd h =>
    ⟨(sqlite_append_load db ⟨ts, sid, cwd, []⟩ h).2.1,
     by
       rw [sqlite_append_entry_eq]
       exact get_entries_append db ⟨ts, sid, cwd, []⟩ h⟩,
   fun db h =>
    ⟨sqlite_load_history_closed db h,
     fun sid => get_entries_by_session_closed db sid h⟩⟩

/-- Witness for C6: appending a zero-item entry to the empty database and
reloading both ways yields exactly that entry with `todos = []`. -/
theorem c6_empty_todos_roundtrip_witness :
    sqlite_load_history (sqlite_append_entry DB.empty ⟨"t", "s", "/c", []⟩).2 =
      [⟨"t", "s", "/c", []⟩] ∧
    get_entries_by_session (sqlite_append_entry DB.empty ⟨"t", "s", "/c", []⟩).2 "s" =
      [⟨"t", "s", "/c", []⟩] := by
  have h := c6_empty_todos_roundtrip.1 DB.empty "t" "s" "/c" DB_empty_WF
  exact ⟨by rw [h.1, sqlite_load_history_empty]; rfl,
         by rw [h.2, get_entries_by_session_empty]; rfl⟩

/-! ## Lemmas: serialized bytes are ASCII -/

theorem asciiOnly_append (a b : String) :
    asciiOnly (a ++ b) = (asciiOnly a && asciiOnly b) := by
  simp [asciiOnly, String.data_append, List.all_append]

theorem hexDigit_ascii : ∀ k < 16, (hexDigit k).toNat < 128 := by decide

theorem hex4_ascii (n : Nat) : asciiOnly (hex4 n) = true := by
  have h16 : ∀ m : Nat, m % 16 < 16 := fun m => Nat.mod_lt _ (by omega)
  simp only [hex4, asciiOnly, List.all_cons, List.all_nil, Bool.and_true,
    Bool.and_eq_true, decide_eq_true_eq]
  exact ⟨hexDigit_ascii _ (h16 _),
    ⟨hexDigit_ascii _ (h16 _), hexDigit_ascii _ (h16 _), hexDigit_ascii _ (h16 _)⟩⟩

theorem escAsciiChar_ascii (c : Char) : asciiOnly (escAsciiChar c) = true := by
  have hu : asciiOnly "\\u" = true := rfl
  unfold escAsciiChar
  split_ifs with h1 h2 h3 h4 h5 h6 h7 h8 h9
  · rfl
  · rfl
  · rfl
  · rfl
  · rfl
  · rfl
  · rfl
  · simp only [Bool.and_eq_true, decide_eq_true_eq] at h8
    simp only [asciiOnly, List.all_cons, List.all_nil, Bool.and_true,
      decide_eq_true_eq]
    omega
  · simp [asciiOnly_append, hex4_ascii, hu]
  · simp [asciiOnly_append, hex4_ascii, hu]

theorem escapeChars_ascii (cs : List Char) : asciiOnly (escapeChars cs) = true := by
  induction cs with
  | nil => rfl
  | cons c cs ih => simp [escapeChars, asciiOnly_append, escAsciiChar_ascii, ih]

theorem encodeStringAscii_ascii (s : String) :
    asciiOnly (encodeStringAscii s) = true := by
  have hq : asciiOnly "\"" = true := rfl
  simp [encodeStringAscii, asciiOnly_append, escapeChars_ascii, hq]

theorem jsonIndent_ascii (lvl : Nat) : asciiOnly (jsonIndent lvl) = true := by
  have h1 : asciiOnly "\n" = true := rfl
  have h2 : asciiOnly (String.mk (List.replicate (2 * lvl) ' ')) = true := by
    simp only [asciiOnly, List.all_eq_true, decide_eq_true_eq]
    intro c hc
    rw [List.eq_of_mem_replicate hc]
    decide
  simp [jsonIndent, asciiOnly_append, h1, h2]

theorem pyDumpsVal_todoItem_ascii (lvl : Nat) (t : TodoItem) :
    asciiOnly (pyDumpsVal lvl (todoItemToJson t)) = true := by
  have hb : asciiOnly "\x7b" = true := rfl
  have hb2 : asciiOnly "\x7d" = true := rfl
  have hc : asciiOnly "," = true := rfl
  have hk : asciiOnly ": " = true := rfl
  simp only [todoItemToJson, pyDumpsVal, pyDumpsFields]
  simp [asciiOnly_append, encodeStringAscii_ascii, jsonIndent_ascii, hb, hb2, hc, hk]

theorem pyDumpsList_todoItems_ascii (lvl : Nat) (t : TodoItem)
    (ts : List TodoItem) :
    asciiOnly (pyDumpsList lvl (todoItemToJson t) (ts.map todoItemToJson)) = true := by
  induction ts generalizing t with
  | nil =>
    simp only [List.map_nil, pyDumpsList]
    exact pyDumpsVal_todoItem_ascii lvl t
  | cons t2 ts ih =>
    have hc : asciiOnly "," = true := rfl
    simp only [List.map_cons, pyDumpsList]
    simp [asciiOnly_append, pyDumpsVal_todoItem_ascii, jsonIndent_ascii, hc, ih]

theorem pyDumpsVal_todosArr_ascii (lvl : Nat) (ts : List TodoItem) :
    asciiOnly (pyDumpsVal lvl (.arr (ts.map todoItemToJson))) = true := by
  rcases ts with _ | ⟨t, ts⟩
  · simp only [List.map_nil, pyDumpsVal]
    rfl
  · have hl : asciiOnly "[" = true := rfl
    have hr : asciiOnly "]" = true := rfl
    simp only [List.map_cons, pyDumpsVal]
    simp [asciiOnly_append, jsonIndent_ascii, pyDumpsList_todoItems_ascii, hl, hr]

theorem pyDumpsVal_entry_ascii (lvl : Nat) (e : LogEntry) :
    asciiOnly (pyDumpsVal lvl (entryToJson e)) = true := by
  have hb : asciiOnly "\x7b" = true := rfl
  have hb2 : asciiOnly "\x7d" = true := rfl
  have hc : asciiOnly "," = true := rfl
  have hk : asciiOnly ": " = true := rfl
  simp only [entryToJson, pyDumpsVal, pyDumpsFields]
  simp [asciiOnly_append, encodeStringAscii_ascii, jsonIndent_ascii,
    pyDumpsVal_todosArr_ascii, hb, hb2, hc, hk]

theorem pyDumpsList_entries_ascii (lvl : Nat) (e : LogEntry)
    (hs : List LogEntry) :
    asciiOnly (pyDumpsList lvl (entryToJson e) (hs.map entryToJson)) = true := by
  induction hs generalizing e with
  | nil =>
    simp only [List.map_nil, pyDumpsList]
    exact pyDumpsVal_entry_ascii lvl e
  | cons e2 hs ih =>
    have hc : asciiOnly "," = true := rfl
    simp only [List.map_cons, pyDumpsList]
    simp [asciiOnly_append, pyDumpsVal_entry_ascii, jsonIndent_ascii, hc, ih]

theorem jsonSerializedBytes_ascii (hs : List LogEntry) :
    asciiOnly (jsonSerializedBytes (hs.map entryToJson)) = true := by
  rcases hs with _ | ⟨e, hs⟩
  · simp only [List.map_nil, jsonSerializedBytes, pyDumpsVal]
    rfl
  · have hl : asciiOnly "[" = true := rfl
    have hr : asciiOnly "]" = true := rfl
    simp only [jsonSerializedBytes, List.map_cons, pyDumpsVal]
    simp [asciiOnly_append, jsonIndent_ascii, pyDumpsList_entries_ascii, hl, hr]

/-- Counterexample for C7: the file backend writes with `json.dump(...,
indent=2)` and the default `ensure_ascii=True`, so a non-ASCII character in
an item's `content` is written as a `\uXXXX` escape: in the bytes written
for a history holding one entry with content `é`, the raw character `é`
does not occur and the six-character escape `\u00e9` does.  This refutes
"the bytes written contain those characters unescaped". -/
theorem c7_unicode_counterexample :
    occursIn "é".data (jsonSerializedBytes
      [entryToJson ⟨"T", "s", "/d", [⟨"é", "pending", "doing"⟩]⟩]).data = false ∧
    occursIn "\\u00e9".data (jsonSerializedBytes
      [entryToJson ⟨"T", "s", "/d", [⟨"é", "pending", "doing"⟩]⟩]).data = true := by
  have hbytes : jsonSerializedBytes
      [entryToJson ⟨"T", "s", "/d", [⟨"é", "pending", "doing"⟩]⟩] =
      "[\n  \x7b\n    \"timestamp\": \"T\",\n    \"session_id\": \"s\",\n    \"cwd\": \"/d\",\n    \"todos\": [\n      \x7b\n        \"content\": \"\\u00e9\",\n        \"status\": \"pending\",\n        \"activeForm\": \"doing\"\n      \x7d\n    ]\n  \x7d\n]" := by
    simp only [jsonSerializedBytes, entryToJson, todoItemToJson, List.map_cons,
      List.map_nil, pyDumpsVal, pyDumpsList, pyDumpsFields]
    rfl
  rw [hbytes]
  exact ⟨by decide, by decide⟩

/-- Claim C7 (amended): the file backend serializes the history with
2-space indentation in UTF-8, but with `json.dump`'s default
`ensure_ascii=True`: the written bytes are pure ASCII, with every
non-ASCII character of the string fields represented by its `\uXXXX`
escape; the characters themselves are restored on load (value-level
round-trip), they are just not stored unescaped. -/
theorem c7_serialization_amended :
    (∀ hs : List LogEntry,
      asciiOnly (jsonSerializedBytes (hs.map entryToJson)) = true) ∧
    jsonSerializedBytes [entryToJson ⟨"t", "s", "c", []⟩] =
      "[\n  \x7b\n    \"timestamp\": \"t\",\n    \"session_id\": \"s\",\n    \"cwd\": \"c\",\n    \"todos\": []\n  \x7d\n]" :=
  ⟨jsonSerializedBytes_ascii,
   by
     simp only [jsonSerializedBytes, entryToJson, List.map_cons, List.map_nil,
       pyDumpsVal, pyDumpsList, pyDumpsFields]
     rfl⟩

/-! ## Lemmas: record shape and extra fields -/

theorem jsonLookup_skip (f1 f2 : List (String × Json)) (k key : String)
    (v : Json) (h : k ≠ key) :
    jsonLookup (f1 ++ (k, v) :: f2) key = jsonLookup (f1 ++ f2) key := by
  induction f1 with
  | nil =>
    simp only [List.nil_append, jsonLookup]
    rw [@List.find?_cons_of_neg _ (fun q => q.1 == key) (k, v) f2 (by simp [h])]
  | cons p f1 ih =>
    simp only [List.cons_append, jsonLookup] at ih ⊢
    by_cases hp : (p.1 == key) = true
    · rw [@List.find?_cons_of_pos _ (fun q => q.1 == key) p _ hp,
        @List.find?_cons_of_pos _ (fun q => q.1 == key) p _ hp]
    · rw [@List.find?_cons_of_neg _ (fun q => q.1 == key) p _ hp,
        @List.find?_cons_of_neg _ (fun q => q.1 == key) p _ hp]
      exact ih

theorem sqliteInsertParams_extra (f1 f2 : List (String × Json)) (k : String)
    (v : Json) (h1 : k ≠ "content") (h2 : k ≠ "status") (h3 : k ≠ "activeForm") :
    sqliteInsertParams (.obj (f1 ++ (k, v) :: f2)) =
      sqliteInsertParams (.obj (f1 ++ f2)) := by
  simp only [sqliteInsertParams, jsonLookup_skip _ _ _ _ _ h1,
    jsonLookup_skip _ _ _ _ _ h2, jsonLookup_skip _ _ _ _ _ h3]

/-- Counterexample for C8: a valid input item carrying an extra field
`"extra"` passes `validate_todos` whole, is persisted whole by the file
backend, and is returned whole by `load_history` — the extra field is not
dropped.  (The claim held only for the relational backend.) -/
theorem c8_extra_fields_counterexample :
    json_load_history
      (json_append_entry emptyFS
        (build_log_entry "T" (some "s") (some "/d")
          (.arr [.obj [("content", .str "a"), ("status", .str "p"),
            ("activeForm", .str "b"), ("extra", .str "x")]])) noFault).2.target =
      [.obj [("timestamp", .str "T"), ("session_id", .str "s"),
        ("cwd", .str "/d"),
        ("todos", .arr [.obj [("content", .str "a"), ("status", .str "p"),
          ("activeForm", .str "b"), ("extra", .str "x")]])]] := by
  rfl

/-- Claim C8 (amended): every built `LogEntry` has exactly the four keys
`timestamp`, `session_id`, `cwd`, `todos`; `validate_todos` keeps every
valid input item whole, so extra item fields are persisted and returned by
the file backend rather than dropped; the relational backend's insert
reads only `content`, `status` and `activeForm` from an item, so an extra
field never affects what it persists. -/
theorem c8_record_shape_amended :
    (∀ (ts : String) (sid cwd : Option String) (raw : Json),
      (build_log_entry ts sid cwd raw).keys =
        ["timestamp", "session_id", "cwd", "todos"]) ∧
    (∀ (items : List Json) (item : Json), item ∈ items →
      validate_todo item = true → item ∈ validate_todos (.arr items)) ∧
    (∀ (f1 f2 : List (String × Json)) (k : String) (v : Json),
      k ≠ "content" → k ≠ "status" → k ≠ "activeForm" →
      sqliteInsertParams (.obj (f1 ++ (k, v) :: f2)) =
        sqliteInsertParams (.obj (f1 ++ f2))) :=
  ⟨fun ts sid cwd raw => rfl,
   fun items item hm hv => by
     simp only [validate_todos, List.mem_filter]
     exact ⟨hm, hv⟩,
   sqliteInsertParams_extra⟩

/-- Witness for C8 (amended) at an item with extra field `"extra"`: it is
kept by validation, and its extra field does not change the three values
the relational insert binds. -/
theorem c8_record_shape_amended_witness :
    (Json.obj [("content", .str "a"), ("status", .str "p"),
      ("activeForm", .str "b"), ("extra", .str "x")]) ∈
      validate_todos (.arr [.obj [("content", .str "a"), ("status", .str "p"),
        ("activeForm", .str "b"), ("extra", .str "x")]]) ∧
    sqliteInsertParams (.obj ([("content", Json.str "a")] ++
        ("extra", Json.str "x") :: [("status", Json.str "p"),
          ("activeForm", Json.str "b")])) =
      sqliteInsertParams (.obj ([("content", Json.str "a")] ++
        [("status", Json.str "p"), ("activeForm", Json.str "b")])) :=
  ⟨c8_record_shape_amended.2.1 _ _ (List.mem_singleton.2 rfl) (by rfl),
   c8_record_shape_amended.2.2 _ _ "extra" (Json.str "x")
     (by decide) (by decide) (by decide)⟩

/-! ## Lemmas: backend selection -/

theorem get_storage_backend_unknown (env : Env) (proj : String)
    (h1 : backendTypeOf env ≠ "json") (h2 : backendTypeOf env ≠ "sqlite") :
    get_storage_backend env proj =
      .error (.valueError ("Unknown storage backend: " ++ backendTypeOf env ++
        ". Expected json or sqlite.")) := by
  simp [get_storage_backend, h1, h2]

theorem get_storage_backend_json_escape (env : Env) (proj : String)
    (h1 : backendTypeOf env = "json")
    (h2 : pyStrip (env.todoLogPath.getD "") ≠ "")
    (h3 : resolve_safe_path proj (pyStrip (env.todoLogPath.getD "")) = none) :
    get_storage_backend env proj =
      .error (.valueError ("TODO_LOG_PATH " ++ pyStrip (env.todoLogPath.getD "") ++
        " escapes project directory")) := by
  simp [get_storage_backend, get_json_path, h1, h2, h3, Except.map]

theorem get_storage_backend_sqlite_escape (env : Env) (proj : String)
    (h1 : backendTypeOf env = "sqlite")
    (h2 : pyStrip (env.todoSqlitePath.getD "") ≠ "")
    (h3 : resolve_safe_path proj (pyStrip (env.todoSqlitePath.getD "")) = none) :
    get_storage_backend env proj =
      .error (.valueError ("TODO_SQLITE_PATH " ++
        pyStrip (env.todoSqlitePath.getD "") ++ " escapes project directory")) := by
  simp [get_storage_backend, get_sqlite_path, h1, h2, h3, Except.map]

theorem get_storage_backend_json_default (env : Env) (proj : String)
    (h1 : backendTypeOf env = "json") (h2 : env.todoLogPath = none) :
    get_storage_backend env proj =
      .ok (.jsonBackend (pathParts proj ++ [".claude", "todos.json"])) := by
  simp [get_storage_backend, get_json_path, h1, h2, pyStrip_empty, Except.map]

theorem get_storage_backend_sqlite_default (env : Env) (proj : String)
    (h1 : backendTypeOf env = "sqlite") (h2 : env.todoSqlitePath = none) :
    get_storage_backend env proj =
      .ok (.sqliteBackend (pathParts proj ++ [".claude", "todos.db"])) := by
  simp [get_storage_backend, get_sqlite_path, h1, h2, pyStrip_empty, Except.map]

/-- Claim C9: backend selection recognizes exactly the two normalised
configuration values `json` and `sqlite` (the variable is read with
`.strip().lower()`); every other value makes `get_storage_backend` return a
`ValueError` with a descriptive message instead of a backend — no silent
fallback — and a configured storage path rejected by the sandbox likewise
yields a `ValueError`.  In the model, backend construction (the first
storage I/O) only happens after a successful return, so these errors are
raised before any storage I/O. -/
theorem c9_backend_selection :
    (∀ (env : Env) (proj : String),
      backendTypeOf env ≠ "json" → backendTypeOf env ≠ "sqlite" →
      get_storage_backend env proj =
        .error (.valueError ("Unknown storage backend: " ++ backendTypeOf env ++
          ". Expected json or sqlite."))) ∧
    (∀ (env : Env) (proj : String),
      backendTypeOf env = "json" →
      pyStrip (env.todoLogPath.getD "") ≠ "" →
      resolve_safe_path proj (pyStrip (env.todoLogPath.getD "")) = none →
      get_storage_backend env proj =
        .error (.valueError ("TODO_LOG_PATH " ++
          pyStrip (env.todoLogPath.getD "") ++ " escapes project directory"))) ∧
    (∀ (env : Env) (proj : String),
      backendTypeOf env = "sqlite" →
      pyStrip (env.todoSqlitePath.getD "") ≠ "" →
      resolve_safe_path proj (pyStrip (env.todoSqlitePath.getD "")) = none →
      get_storage_backend env proj =
        .error (.valueError ("TODO_SQLITE_PATH " ++
          pyStrip (env.todoSqlitePath.getD "") ++ " escapes project directory"))) ∧
    (∀ (env : Env) (proj : String),
      backendTypeOf env = "json" → env.todoLogPath = none →
      get_storage_backend env proj =
        .ok (.jsonBackend (pathParts proj ++ [".claude", "todos.json"]))) ∧
    (∀ (env : Env) (proj : String),
      backendTypeOf env = "sqlite" → env.todoSqlitePath = none →
      get_storage_backend env proj =
        .ok (.sqliteBackend (pathParts proj ++ [".claude", "todos.db"]))) :=
  ⟨get_storage_backend_unknown, get_storage_backend_json_escape,
   get_storage_backend_sqlite_escape, get_storage_backend_json_default,
   get_storage_backend_sqlite_default⟩

/-- Witness for C9: `yaml` is rejected with the descriptive error; an
escaping `TODO_LOG_PATH` under the default backend is rejected; ` SQLite `
normalises to the recognized `sqlite`; both unconfigured defaults
succeed. -/
theorem c9_backend_selection_witness :
    get_storage_backend ⟨some "yaml", none, none⟩ "/proj" =
      .error (.valueError "Unknown storage backend: yaml. Expected json or sqlite.") ∧
    get_storage_backend ⟨none, some "../x", none⟩ "/proj" =
      .error (.valueError "TODO_LOG_PATH ../x escapes project directory") ∧
    get_storage_backend ⟨some " SQLite ", none, some "/etc/passwd"⟩ "/proj" =
      .error (.valueError "TODO_SQLITE_PATH /etc/passwd escapes project directory") ∧
    get_storage_backend ⟨none, none, none⟩ "/proj" =
      .ok (.jsonBackend ["proj", ".claude", "todos.json"]) ∧
    get_storage_backend ⟨some "sqlite", none, none⟩ "/proj" =
      .ok (.sqliteBackend ["proj", ".claude", "todos.db"]) := by
  refine ⟨?_, ?_, ?_, ?_, ?_⟩
  · have h := c9_backend_selection.1 ⟨some "yaml", none, none⟩ "/proj"
      (by decide) (by decide)
    simpa using h
  · have h := c9_backend_selection.2.1 ⟨none, some "../x", none⟩ "/proj"
      (by decide) (by decide) (by decide)
    simpa using h
  · have h := c9_backend_selection.2.2.1 ⟨some " SQLite ", none, some "/etc/passwd"⟩
      "/proj" (by decide) (by decide) (by decide)
    simpa using h
  · have h := c9_backend_selection.2.2.2.1 ⟨none, none, none⟩ "/proj"
      (by decide) rfl
    simpa using h
  · have h := c9_backend_selection.2.2.2.2 ⟨some "sqlite", none, none⟩ "/proj"
      (by decide) rfl
    simpa using h

/-! ## C10: error surfacing -/

/-- Counterexample for C10: the claim says read failures of `load_history`
on an existing file are surfaced as raised errors, but the file backend
catches `OSError` together with `JSONDecodeError` (`json_backend.py`,
lines 58-60): on an existing-but-unreadable file the call returns `ok []`
instead of propagating the error. -/
theorem c10_io_failures_counterexample :
    json_load_historyE (some .unreadable) = .ok [] ∧
    json_load_historyE (some .unreadable) ≠ .error .oserrorRead := by
  exact ⟨rfl, by simp [json_load_historyE]⟩

/-- Claim C10 (amended): I/O failures during `append_entry` are surfaced:
the file backend re-raises the original write/replace error even when the
cleanup unlink fails, and the relational backend re-raises the constraint
violation for any behaviour of the swallowed best-effort rollback; but the
file backend's `load_history` swallows read failures on an existing file
and returns the empty sequence instead of raising. -/
theorem c10_io_failures_amended :
    (∀ (fs : JsonFS) (entry : Json) (f : Fault),
      f.failWrite = true ∨ f.failReplace = true →
      (json_append_entry fs entry f).1 =
        some (if f.failWrite then PyErr.oserrorWrite else PyErr.oserrorReplace)) ∧
    (∀ (db : DB) (ts sid cwd : String) (todos : List RawTodoItem) (rbf : Bool),
      (∃ t ∈ todos, t.content = none ∨ t.status = none ∨ t.activeForm = none) →
      (sqlite_append_entry_raw db ts sid cwd todos rbf).1 =
        some .integrityError) ∧
    json_load_historyE (some .unreadable) = .ok [] :=
  ⟨fun fs entry f h => (json_append_fault fs entry f h).1,
   fun db ts sid cwd todos rbf h => by
     rw [sqlite_append_raw_bad db ts sid cwd todos rbf h],
   rfl⟩

/-- Witness for C10 (amended): a failing replace with failing unlink still
reports the replace error; a null-content item append reports the
constraint error with a failing rollback. -/
theorem c10_io_failures_amended_witness :
    (json_append_entry emptyFS (.str "e") ⟨false, true, true⟩).1 =
      some PyErr.oserrorReplace ∧
    (sqlite_append_entry_raw DB.empty "t" "s" "/c"
      [⟨none, some "p", some "d"⟩] true).1 = some .integrityError := by
  refine ⟨?_, ?_⟩
  · have h := c10_io_failures_amended.1 emptyFS (.str "e") ⟨false, true, true⟩
      (Or.inr rfl)
    simpa using h
  · exact c10_io_failures_amended.2.1 DB.empty "t" "s" "/c"
      [⟨none, some "p", some "d"⟩] true
      ⟨⟨none, some "p", some "d"⟩, by simp, Or.inl rfl⟩

end TodoLog
